import Mathlib

/-!
Shallow embedding of the font-installer pipeline of the `helper-scripts`
repository, taken from `font-installer/fontofx.py` (the main pipeline:
`is_font_file`, `extract_zip`, `install_font`, `select_fonts_cli`, and the
selection/installation part of `main`) and from
`font-installer/font-fox.py` (`install_fonts`, for the scratch-directory
lifecycle). Python strings are modelled as Lean `String`/`List Char`
(with executable ASCII models of the `str` methods the code calls),
Python lists as Lean `List`, stdin as an explicit queue of lines, and the
outcomes of external calls (`zipfile`, `subprocess`) as explicit inductive
inputs matching the `try/except` arms of the code.
-/

/-- Python `str.lower` (ASCII model), applied characterwise. -/
def pyLower (cs : List Char) : List Char :=
  cs.map Char.toLower

/-- Python `str.strip()` with no argument: drop whitespace from both ends
(model restricted to the ASCII whitespace the inputs can contain). -/
def pyStrip (cs : List Char) : List Char :=
  ((cs.dropWhile Char.isWhitespace).reverse.dropWhile Char.isWhitespace).reverse

/-- Python `str.split(sep)` with a one-character separator: splitting the
empty string gives `[""]`, and adjacent separators give empty fields. -/
def pySplit (sep : Char) : List Char → List (List Char)
  | [] => [[]]
  | c :: cs =>
    if c = sep then [] :: pySplit sep cs
    else
      match pySplit sep cs with
      | [] => [[c]]
      | group :: groups => (c :: group) :: groups

/-- `FONT_EXTENSIONS` (fontofx.py line 20): extensions the installer looks for. -/
def FONT_EXTENSIONS : List String := [".ttf", ".otf", ".ttc", ".dfont"]

/-- `is_font_file` (lines 38-40): `filename.lower().endswith(FONT_EXTENSIONS)`,
where `endswith` on a tuple succeeds when any listed suffix matches. -/
def is_font_file (filename : String) : Bool :=
  FONT_EXTENSIONS.any (fun suffix => List.isSuffixOf suffix.toList (pyLower filename.toList))

/-- The dictionaries `{'path': full_path, 'name': file}` built by
`extract_zip` for each matching file. -/
structure FontCandidate where
  path : String
  name : String
  deriving DecidableEq, Repr, Inhabited

/-- Outcome of opening and extracting the ZIP container, as distinguished by
the `try/except` arms of `extract_zip` (lines 56-75): a readable archive
with its file entries (relative paths; directory entries only recreate
directories and are never listed by the file walk), a `zipfile.BadZipFile`
(which is also what an empty file raises), or any other exception during
extraction (the `except Exception` arm). -/
inductive ZipInput where
  | ok (entries : List String)
  | badZip
  | extractError (msg : String)
  deriving DecidableEq, Repr

/-- Last path component of an entry: `os.walk` yields each file's bare name,
which for an archive entry's relative path is the part after the last `/`. -/
def basename (p : String) : String :=
  ⟨(pySplit '/' p.toList).getLastD []⟩

/-- `extract_zip` (lines 43-77): extract everything, then walk the extracted
tree and keep every file whose name passes `is_font_file`; both `except`
arms print an error and return the empty list. The model assumes the
archive's file-entry paths are distinct (extraction overwrites duplicates). -/
def extract_zip (zip_input : ZipInput) (extract_dir : String) : List FontCandidate :=
  match zip_input with
  | .ok entries =>
      entries.filterMap (fun entry =>
        if is_font_file (basename entry) then
          some { path := extract_dir ++ "/" ++ entry, name := basename entry }
        else none)
  | .badZip => []
  | .extractError _ => []

/-- Digit run of a Python integer literal after the first digit: digits with
single underscores strictly between digits, accumulating the value. -/
def pyDigitsCore (acc : Nat) : List Char → Option Nat
  | [] => some acc
  | '_' :: c :: cs =>
      if c.isDigit then pyDigitsCore (acc * 10 + (c.toNat - 48)) cs else none
  | '_' :: [] => none
  | c :: cs =>
      if c.isDigit then pyDigitsCore (acc * 10 + (c.toNat - 48)) cs else none

/-- Unsigned part of Python `int()`: a nonempty digit run. -/
def parsePyIntCore : List Char → Option Nat
  | [] => none
  | c :: cs => if c.isDigit then pyDigitsCore (c.toNat - 48) cs else none

/-- Python `int(s)` (ASCII model): strip whitespace, optional sign, then a
nonempty digit run; `none` models `ValueError`. -/
def parsePyInt (cs : List Char) : Option Int :=
  match pyStrip cs with
  | '-' :: rest => (parsePyIntCore rest).map (fun n => -(n : Int))
  | '+' :: rest => (parsePyIntCore rest).map (fun n => (n : Int))
  | rest => (parsePyIntCore rest).map (fun n => (n : Int))

/-- Python `range(start, stop + 1)` over `Int`, as a list: empty when
`stop + 1 <= start`. -/
def rangeList (start stop : Int) : List Int :=
  (List.range (stop + 1 - start).toNat).map (fun k => start + k)

/-- One comma token of a selection line (lines 232-238): a token containing
`-` must split into exactly two integer fields `start` and `stop` and
contributes `range(start, stop + 1)` (unpacking any other number of fields
raises `ValueError`); any other token is a single integer. -/
def parsePart (part : List Char) : Option (List Int) :=
  if part.contains '-' then
    match pySplit '-' part with
    | [a, b] =>
        match parsePyInt a, parsePyInt b with
        | some x, some y => some (rangeList x y)
        | _, _ => none
    | _ => none
  else
    (parsePyInt part).map (fun n => [n])

/-- The index-gathering part of the `try` body (lines 228-238): split the
line on commas and concatenate each token's indices in order; `none`
models the `ValueError` caught at line 249. -/
def parseSelection (cs : List Char) : Option (List Int) :=
  ((pySplit ',' cs).mapM parsePart).map List.flatten

/-- Lines 241-247: shift every index down by one, reject the whole line when
any shifted index is out of bounds, else index into the candidate list.
On the `some` branch every index is in bounds, so the `getD` default is
never consulted. -/
def applySelection (font_files : List FontCandidate) (idxs : List Int) :
    Option (List FontCandidate) :=
  let selected_indices := idxs.map (fun idx => idx - 1)
  if selected_indices.any
      (fun idx => decide (idx < 0) || decide ((font_files.length : Int) ≤ idx)) then
    none
  else
    some (selected_indices.map (fun idx => font_files.getD idx.toNat default))

/-- `select_fonts_cli` (lines 200-250), modelled over the queue of lines the
operator will type: each iteration strips and lowercases one line, returns
on `q` (empty result), `all` (everything), or a fully valid selection, and
otherwise prints a message and loops. `none` models stdin running out
before the loop returns (`input()` raising `EOFError`). -/
def select_fonts_cli (font_files : List FontCandidate) :
    List String → Option (List FontCandidate)
  | [] => none
  | line :: rest =>
    let s := pyLower (pyStrip line.toList)
    if s = "q".toList then some []
    else if s = "all".toList then some font_files
    else
      match parseSelection s with
      | none => select_fonts_cli font_files rest
      | some idxs =>
        match applySelection font_files idxs with
        | none => select_fonts_cli font_files rest
        | some sel => some sel

/-- The piped branch of `main` (lines 408-434): read exactly one line,
strip it (without lowercasing), honour the literals `all` and `q`, and on
any `ValueError` or out-of-bounds index fall back to the full list. -/
def pipedSelect (font_files : List FontCandidate) (line : String) :
    List FontCandidate :=
  let selection := pyStrip line.toList
  if selection = "all".toList then font_files
  else if selection = "q".toList then []
  else
    match parseSelection selection with
    | none => font_files
    | some idxs =>
      match applySelection font_files idxs with
      | none => font_files
      | some sel => sel

/-- The selection stage of `main` (lines 393-437), after the `install_all`
flag has been settled: `install_all` and auto mode take everything, the GUI
branch yields whatever the dialog returned (`guiSel`), the interactive
branch runs `select_fonts_cli` (an `EOFError` escaping it is caught at
line 435 and defaults to installing all), and the non-tty branch parses
the single piped line (`readline` on an exhausted pipe yields `""`). -/
def mainSelectFonts (install_all auto_mode use_gui stdin_tty : Bool)
    (guiSel : List FontCandidate) (font_files : List FontCandidate)
    (stdinLines : List String) : List FontCandidate :=
  if install_all then font_files
  else if auto_mode then font_files
  else if use_gui then guiSel
  else if stdin_tty then (select_fonts_cli font_files stdinLines).getD font_files
  else pipedSelect font_files (stdinLines.headD "")

/-- Result of one `subprocess.run(..., check=True)` call: clean exit,
nonzero exit (`subprocess.CalledProcessError`, a `SubprocessError`), or
missing executable (`FileNotFoundError`). -/
inductive ProcResult where
  | success
  | nonzeroExit
  | toolAbsent
  deriving DecidableEq, Repr

/-- `install_font` (lines 80-111): run `open` on the font, then run
`osascript`; a `SubprocessError` from either call returns `False`, while a
`FileNotFoundError` (the platform tool is absent) prints "Would install"
and returns `True`. A failing `open` means `osascript` never runs. -/
def install_font (openResult osascriptResult : ProcResult) : Bool :=
  match openResult with
  | .nonzeroExit => false
  | .toolAbsent => true
  | .success =>
    match osascriptResult with
    | .nonzeroExit => false
    | .toolAbsent => true
    | .success => true

/-- The install loop of `main` (lines 444-453): every selected font is
attempted in order, tallying successes and failures; each font carries the
outcomes of its two external calls. -/
def installBatch (fonts : List (FontCandidate × ProcResult × ProcResult)) :
    Nat × Nat :=
  fonts.foldl
    (fun counts font =>
      if install_font font.2.1 font.2.2 then (counts.1 + 1, counts.2)
      else (counts.1, counts.2 + 1))
    (0, 0)

/-- `tempfile.TemporaryDirectory` used as a context manager (line 343): the
body runs while the directory exists, and the manager deletes the
directory on every exit path (normal completion, `sys.exit`, and uncaught
exceptions alike). The second component reports whether the scratch
directory still exists after the block. -/
def withTempDir {α : Type} (body : Bool → α) : α × Bool :=
  (body true, false)

/-- How the `TemporaryDirectory` block of `main` ends. -/
inductive RunExit where
  | noFontsFound
  | nothingSelected
  | completed
  deriving DecidableEq, Repr

/-- The body of `main` from line 343 on: extract into the scratch directory,
exit with an error when no fonts were found (line 355), select, exit
cleanly when nothing was selected (line 441), else run the install loop. -/
def fontofx_run (z : ZipInput) (install_all auto_mode use_gui stdin_tty : Bool)
    (guiSel : List FontCandidate) (stdinLines : List String) : RunExit × Bool :=
  withTempDir (fun _ =>
    let font_files := extract_zip z "tmpdir"
    if font_files.isEmpty then RunExit.noFontsFound
    else
      let fonts_to_install :=
        mainSelectFonts install_all auto_mode use_gui stdin_tty guiSel
          font_files stdinLines
      if fonts_to_install.isEmpty then RunExit.nothingSelected
      else RunExit.completed)

/-- `font_extensions` of `font-fox.py` (line 34): note no `.ttc`. -/
def fox_font_extensions : List String := [".ttf", ".otf", ".dfont"]

/-- `install_fonts` of `font-fox.py` (lines 10-49), tracked for its scratch
directory `~/Downloads/extracted_fonts`: the function recreates the
directory, and only the final success path removes it; the `BadZipFile`
arm and the "no valid font files" arm `return` with the directory still on
disk, and any other exception during `extractall` propagates likewise.
Font matching there is `f.endswith(font_extensions)` on the top-level
listing, with no lowercasing. Result: whether the directory still exists
when `install_fonts` returns. -/
def fox_install_fonts_scratch_exists_after (z : ZipInput) : Bool :=
  match z with
  | .badZip => true
  | .extractError _ => true
  | .ok entries =>
    let font_files :=
      entries.filter (fun f =>
        fox_font_extensions.any (fun suffix => List.isSuffixOf suffix.toList f.toList))
    if font_files.isEmpty then true else false

/-- A selection line the parsing code rejects (lines 227-250 and their copy
at lines 414-434): the line is neither `q` nor `all`, and either the token
grammar raises `ValueError`, or some resulting 1-based index falls outside
`[1, N]` for the `N` given candidates. -/
def rejectsLine (font_files : List FontCandidate) (s : List Char) : Bool :=
  decide (s ≠ "q".toList) && decide (s ≠ "all".toList) &&
    (match parseSelection s with
     | none => true
     | some idxs =>
       idxs.any (fun i => decide (i < 1) || decide ((font_files.length : Int) < i)))

/-- Concrete candidates used by concrete evaluations. -/
def cA : FontCandidate := { path := "/tmp/x/a.ttf", name := "a.ttf" }

def cB : FontCandidate := { path := "/tmp/x/b.ttf", name := "b.ttf" }

def cC : FontCandidate := { path := "/tmp/x/c.ttf", name := "c.ttf" }

def cD : FontCandidate := { path := "/tmp/x/d.ttf", name := "d.ttf" }

def cE : FontCandidate := { path := "/tmp/x/e.ttf", name := "e.ttf" }

def demo2 : List FontCandidate := [cA, cB]

def demo3 : List FontCandidate := [cA, cB, cC]

def demo5 : List FontCandidate := [cA, cB, cC, cD, cE]

/-! ### Helper lemmas shared by the claim theorems -/

theorem parseSelection_q_eq_none : parseSelection "q".toList = none := by decide

theorem parseSelection_all_eq_none : parseSelection "all".toList = none := by decide

theorem select_fonts_cli_cons_of_parse (fs : List FontCandidate) (line : String)
    (rest : List String) (idxs : List Int)
    (hp : parseSelection (pyLower (pyStrip line.toList)) = some idxs) :
    select_fonts_cli fs (line :: rest) =
      match applySelection fs idxs with
      | none => select_fonts_cli fs rest
      | some sel => some sel := by
  have hq : pyLower (pyStrip line.toList) ≠ "q".toList := by
    intro h
    rw [h, parseSelection_q_eq_none] at hp
    exact Option.noConfusion hp
  have hall : pyLower (pyStrip line.toList) ≠ "all".toList := by
    intro h
    rw [h, parseSelection_all_eq_none] at hp
    exact Option.noConfusion hp
  simp only [select_fonts_cli]
  rw [if_neg hq, if_neg hall, hp]

theorem select_fonts_cli_cons_parse_none (fs : List FontCandidate) (line : String)
    (rest : List String)
    (hq : pyLower (pyStrip line.toList) ≠ "q".toList)
    (hall : pyLower (pyStrip line.toList) ≠ "all".toList)
    (hp : parseSelection (pyLower (pyStrip line.toList)) = none) :
    select_fonts_cli fs (line :: rest) = select_fonts_cli fs rest := by
  simp only [select_fonts_cli]
  rw [if_neg hq, if_neg hall, hp]

theorem applySelection_eq_some (fs : List FontCandidate) (idxs : List Int)
    (sel : List FontCandidate) (h : applySelection fs idxs = some sel) :
    sel = idxs.map (fun idx => fs.getD (idx - 1).toNat default) := by
  simp only [applySelection] at h
  split at h
  · exact Option.noConfusion h
  · have := Option.some.inj h
    rw [← this, List.map_map]
    rfl

theorem applySelection_eq_none_of_oob (fs : List FontCandidate) (idxs : List Int)
    (h : idxs.any (fun i => decide (i < 1) || decide ((fs.length : Int) < i)) = true) :
    applySelection fs idxs = none := by
  simp only [applySelection]
  rw [if_pos]
  rw [List.any_map]
  have hfun : ((fun idx : Int =>
        decide (idx < 0) || decide ((fs.length : Int) ≤ idx)) ∘ (fun idx : Int => idx - 1)) =
      (fun i : Int => decide (i < 1) || decide ((fs.length : Int) < i)) := by
    funext i
    simp only [Function.comp]
    congr 1
    · rw [decide_eq_decide]
      omega
    · rw [decide_eq_decide]
      omega
  rw [hfun]
  exact h

theorem applySelection_nil (fs : List FontCandidate) :
    applySelection fs [] = some [] := by
  simp [applySelection]

theorem installBatch_fold (fonts : List (FontCandidate × ProcResult × ProcResult))
    (a b : Nat) :
    (fonts.foldl
      (fun counts font =>
        if install_font font.2.1 font.2.2 then (counts.1 + 1, counts.2)
        else (counts.1, counts.2 + 1)) (a, b)).1 +
    (fonts.foldl
      (fun counts font =>
        if install_font font.2.1 font.2.2 then (counts.1 + 1, counts.2)
        else (counts.1, counts.2 + 1)) (a, b)).2 = a + b + fonts.length := by
  induction fonts generalizing a b with
  | nil => simp
  | cons f fs ih =>
    simp only [List.foldl_cons, List.length_cons]
    by_cases h : install_font f.2.1 f.2.2
    · rw [if_pos h]
      rw [ih]
      omega
    · rw [if_neg h]
      rw [ih]
      omega

/-! ### Claim theorems -/

/-- Claim C1 counterexample: on the two-candidate list `demo2`, the input
`"1,1"` makes the interactive selector return the first candidate twice,
and the piped selector does the same, so the selection does not contain
each named candidate at most once. -/
theorem C1_counterexample :
    select_fonts_cli demo2 ["1,1"] = some [cA, cA] ∧
    ((select_fonts_cli demo2 ["1,1"]).getD []).count cA = 2 ∧
    pipedSelect demo2 "1,1" = [cA, cA] := by decide

/-- Claim C1 (amended): for every candidate list and every selection line
whose tokens parse to an index list that validates in bounds, the CLI
selector returns one candidate per index occurrence — the result has
exactly as many elements as the parsed index list, so naming an index
twice yields its candidate twice (multiset, not set, semantics). -/
theorem C1_selection_multiplicity (fs : List FontCandidate) (line : String)
    (rest : List String) (idxs : List Int) (sel : List FontCandidate)
    (hp : parseSelection (pyLower (pyStrip line.toList)) = some idxs)
    (ha : applySelection fs idxs = some sel) :
    select_fonts_cli fs (line :: rest) = some sel ∧ sel.length = idxs.length := by
  constructor
  · rw [select_fonts_cli_cons_of_parse fs line rest idxs hp, ha]
  · rw [applySelection_eq_some fs idxs sel ha, List.length_map]

/-- Witness for the amended claim C1 at the concrete input `"1,1"`. -/
theorem C1_witness :
    select_fonts_cli demo2 ["1,1"] = some [cA, cA] ∧
    ([cA, cA] : List FontCandidate).length = ([1, 1] : List Int).length :=
  C1_selection_multiplicity demo2 "1,1" [] [1, 1] [cA, cA] (by decide) (by decide)

/-- Claim C2 counterexample: over three candidates, the input `"3,1"` makes
the interactive selector return `[cC, cA]` — the typed order — and not the
candidate-list order `[cA, cC]`; the piped selector behaves the same. -/
theorem C2_counterexample :
    select_fonts_cli demo3 ["3,1"] = some [cC, cA] ∧
    select_fonts_cli demo3 ["3,1"] ≠ some [cA, cC] ∧
    pipedSelect demo3 "3,1" = [cC, cA] := by decide

/-- Claim C2 (amended): for every candidate list and every selection line
whose tokens parse to an index list that validates in bounds, the CLI
selector returns the candidates in the order the indices were typed: the
k-th element of the result is the candidate at the k-th parsed 1-based
index, not a subsequence in original candidate order. -/
theorem C2_selection_typed_order (fs : List FontCandidate) (line : String)
    (rest : List String) (idxs : List Int) (sel : List FontCandidate)
    (hp : parseSelection (pyLower (pyStrip line.toList)) = some idxs)
    (ha : applySelection fs idxs = some sel) :
    select_fonts_cli fs (line :: rest) = some sel ∧
    sel = idxs.map (fun idx => fs.getD (idx - 1).toNat default) := by
  constructor
  · rw [select_fonts_cli_cons_of_parse fs line rest idxs hp, ha]
  · exact applySelection_eq_some fs idxs sel ha

/-- Witness for the amended claim C2 at the concrete input `"3,1"`. -/
theorem C2_witness :
    select_fonts_cli demo3 ["3,1"] = some [cC, cA] ∧
    ([cC, cA] : List FontCandidate) =
      ([3, 1] : List Int).map (fun idx => demo3.getD (idx - 1).toNat default) :=
  C2_selection_typed_order demo3 "3,1" [] [3, 1] [cC, cA] (by decide) (by decide)

/-- Claim C3: a selection line carrying an index outside `[1, N]` (or input
the grammar cannot tokenize) makes the interactive selector skip it and
continue with the remaining input — a re-prompt, not a crash — while the
same condition on the piped branch returns the full candidate list
(install-all fallback) instead of raising. -/
theorem C3_invalid_selection (fs : List FontCandidate) (line pipedLine : String)
    (rest : List String)
    (h1 : rejectsLine fs (pyLower (pyStrip line.toList)) = true)
    (h2 : rejectsLine fs (pyStrip pipedLine.toList) = true) :
    select_fonts_cli fs (line :: rest) = select_fonts_cli fs rest ∧
    pipedSelect fs pipedLine = fs := by
  simp only [rejectsLine, Bool.and_eq_true, decide_eq_true_eq] at h1 h2
  obtain ⟨⟨hq1, hall1⟩, hm1⟩ := h1
  obtain ⟨⟨hq2, hall2⟩, hm2⟩ := h2
  constructor
  · cases hps : parseSelection (pyLower (pyStrip line.toList)) with
    | none => exact select_fonts_cli_cons_parse_none fs line rest hq1 hall1 hps
    | some idxs =>
      rw [hps] at hm1
      rw [select_fonts_cli_cons_of_parse fs line rest idxs hps,
        applySelection_eq_none_of_oob fs idxs hm1]
  · simp only [pipedSelect]
    rw [if_neg hall2, if_neg hq2]
    cases hps : parseSelection (pyStrip pipedLine.toList) with
    | none => rfl
    | some idxs =>
      rw [hps] at hm2
      show (match applySelection fs idxs with
            | none => fs
            | some sel => sel) = fs
      rw [applySelection_eq_none_of_oob fs idxs hm2]

/-- Witness for claim C3: over two candidates, the out-of-range line `"7"`
is skipped by the interactive loop and the out-of-range line `"0"` makes
the piped branch return everything. -/
theorem C3_witness :
    rejectsLine demo2 (pyLower (pyStrip ("7" : String).toList)) = true ∧
    rejectsLine demo2 (pyStrip ("0" : String).toList) = true ∧
    (select_fonts_cli demo2 ["7", "1"] = select_fonts_cli demo2 ["1"] ∧
      pipedSelect demo2 "0" = demo2) :=
  ⟨by decide, by decide,
    C3_invalid_selection demo2 "7" "0" ["1"] (by decide) (by decide)⟩

/-- Claim C4: with `install_all` settled to true, the selection stage of
`main` returns the candidate sequence unchanged and in order, whatever the
other mode flags, the GUI result, and the stdin contents are. -/
theorem C4_install_all_identity (auto_mode use_gui stdin_tty : Bool)
    (guiSel font_files : List FontCandidate) (stdinLines : List String) :
    mainSelectFonts true auto_mode use_gui stdin_tty guiSel font_files stdinLines =
      font_files := rfl

/-- Claim C5: over the five-candidate list `demo5`, the selection grammar
parses `"1,3"` to the candidates at 0-based indices 0 and 2, the inclusive
range `"1-3"` to indices 0, 1, 2, and `"2-2"` to index 1, in both the
interactive and the piped selector. -/
theorem C5_grammar_concrete :
    select_fonts_cli demo5 ["1,3"] = some [cA, cC] ∧
    select_fonts_cli demo5 ["1-3"] = some [cA, cB, cC] ∧
    select_fonts_cli demo5 ["2-2"] = some [cB] ∧
    pipedSelect demo5 "1,3" = [cA, cC] ∧
    pipedSelect demo5 "1-3" = [cA, cB, cC] ∧
    pipedSelect demo5 "2-2" = [cB] := by decide

/-- The extractor keeps exactly the entries whose base name passes
`is_font_file`. -/
theorem extract_zip_ok_length (entries : List String) (extract_dir : String) :
    (extract_zip (ZipInput.ok entries) extract_dir).length =
      (entries.filter (fun e => is_font_file (basename e))).length := by
  induction entries with
  | nil => rfl
  | cons e es ih =>
    cases h : is_font_file (basename e) with
    | false => simpa [extract_zip, List.filterMap_cons, List.filter_cons, h] using ih
    | true => simpa [extract_zip, List.filterMap_cons, List.filter_cons, h] using ih

/-- Claim C6: for an archive whose (distinct) file entries include exactly
`M` files with an extension in the allow-list, compared case-insensitively
on the file name only, the extractor returns exactly `M` candidates. -/
theorem C6_extract_count (entries : List String) (extract_dir : String) (M : Nat)
    (hnodup : entries.Nodup)
    (hM : (entries.filter (fun e => is_font_file (basename e))).length = M) :
    (extract_zip (ZipInput.ok entries) extract_dir).length = M := by
  rw [extract_zip_ok_length]
  exact hM

/-- Witness for claim C6 on a five-entry archive with three font files
(one uppercase, one nested, one mixed case). -/
theorem C6_witness :
    (["fonts/A.TTF", "fonts/readme.txt", "b.otf", "sub/c.DFont", "notes.md"] :
      List String).Nodup ∧
    ((["fonts/A.TTF", "fonts/readme.txt", "b.otf", "sub/c.DFont", "notes.md"] :
      List String).filter (fun e => is_font_file (basename e))).length = 3 ∧
    (extract_zip
      (ZipInput.ok ["fonts/A.TTF", "fonts/readme.txt", "b.otf", "sub/c.DFont", "notes.md"])
      "/tmp/scratch").length = 3 :=
  ⟨by decide, by decide,
    C6_extract_count ["fonts/A.TTF", "fonts/readme.txt", "b.otf", "sub/c.DFont", "notes.md"]
      "/tmp/scratch" 3 (by decide) (by decide)⟩

/-- Claim C7: a non-ZIP input (including an empty file, which raises
`BadZipFile`) and any I/O error during decompression both make the
extractor return the empty candidate list; the model function is total, so
no exception crosses the pipeline boundary. -/
theorem C7_bad_archive_yields_empty (msg extract_dir alt_dir : String) :
    extract_zip ZipInput.badZip extract_dir = [] ∧
    extract_zip (ZipInput.extractError msg) alt_dir = [] :=
  ⟨rfl, rfl⟩

/-- Claim C8: the installer returns `false` when either external call exits
nonzero, returns `true` (the logged "would install" no-op) when the
platform tool is absent, and the batch loop tallies every selected font —
successes plus failures always equal the number attempted, so one failure
never aborts the run. -/
theorem C8_install_failure_isolated :
    (∀ r, install_font ProcResult.nonzeroExit r = false) ∧
    install_font ProcResult.success ProcResult.nonzeroExit = false ∧
    (∀ r, install_font ProcResult.toolAbsent r = true) ∧
    install_font ProcResult.success ProcResult.toolAbsent = true ∧
    (∀ fonts, (installBatch fonts).1 + (installBatch fonts).2 = fonts.length) := by
  refine ⟨fun r => rfl, rfl, fun r => rfl, rfl, fun fonts => ?_⟩
  simpa [installBatch] using installBatch_fold fonts 0 0

/-- Claim C9 counterexample: `install_fonts` of `font-fox.py` leaves its
scratch extraction directory on disk both when the archive is not a valid
ZIP and when the archive holds no font files. -/
theorem C9_counterexample :
    fox_install_fonts_scratch_exists_after ZipInput.badZip = true ∧
    fox_install_fonts_scratch_exists_after (ZipInput.ok ["readme.txt"]) = true := by
  decide

/-- Claim C9 (amended): for `fontofx.py`'s `main`, the scratch directory is
scoped to the `TemporaryDirectory` block and no longer exists after the
run, on every exit path (no fonts found, nothing selected, completed,
error); `font-fox.py`'s `install_fonts` does not share this guarantee. -/
theorem C9_fontofx_scratch_removed (z : ZipInput)
    (install_all auto_mode use_gui stdin_tty : Bool)
    (guiSel : List FontCandidate) (stdinLines : List String) :
    (fontofx_run z install_all auto_mode use_gui stdin_tty guiSel stdinLines).2 =
      false := rfl

/-- Claim C10: a range token whose start exceeds its end contributes no
indices; a line all of whose tokens are such reversed ranges parses to the
empty index list, which the selector accepts as a valid empty selection
without re-prompting (and without the operator entering `q`), so the run
exits reporting nothing selected. -/
theorem C10_reversed_range (a b : Int) (hrev : b < a)
    (z : ZipInput) (line : String) (rest : List String)
    (hp : parseSelection (pyLower (pyStrip line.toList)) = some [])
    (hfonts : extract_zip z "tmpdir" ≠ []) :
    rangeList a b = [] ∧
    pyLower (pyStrip line.toList) ≠ "q".toList ∧
    select_fonts_cli (extract_zip z "tmpdir") (line :: rest) = some [] ∧
    (fontofx_run z false false false true [] (line :: rest)).1 =
      RunExit.nothingSelected := by
  have hrl : rangeList a b = [] := by
    unfold rangeList
    have hz : (b + 1 - a).toNat = 0 := by omega
    rw [hz]
    rfl
  have hq : pyLower (pyStrip line.toList) ≠ "q".toList := by
    intro h
    rw [h, parseSelection_q_eq_none] at hp
    exact Option.noConfusion hp
  have hsel : ∀ fs : List FontCandidate,
      select_fonts_cli fs (line :: rest) = some [] := by
    intro fs
    rw [select_fonts_cli_cons_of_parse fs line rest [] hp, applySelection_nil]
  refine ⟨hrl, hq, hsel _, ?_⟩
  have hbody : (fontofx_run z false false false true [] (line :: rest)).1 =
      (if (extract_zip z "tmpdir").isEmpty then RunExit.noFontsFound
       else
         if (mainSelectFonts false false false true [] (extract_zip z "tmpdir")
              (line :: rest)).isEmpty
         then RunExit.nothingSelected
         else RunExit.completed) := rfl
  rw [hbody]
  cases hL : extract_zip z "tmpdir" with
  | nil => exact absurd hL hfonts
  | cons f fsr =>
    simp [mainSelectFonts, hsel (f :: fsr)]

/-- Witness for claim C10 at the concrete reversed range `"3-1"` over a
five-font archive. -/
theorem C10_witness :
    ((1 : Int) < 3 ∧
      parseSelection (pyLower (pyStrip ("3-1" : String).toList)) = some [] ∧
      extract_zip (ZipInput.ok ["a.ttf", "b.ttf", "c.ttf", "d.ttf", "e.ttf"])
        "tmpdir" ≠ []) ∧
    (rangeList 3 1 = [] ∧
      pyLower (pyStrip ("3-1" : String).toList) ≠ "q".toList ∧
      select_fonts_cli
        (extract_zip (ZipInput.ok ["a.ttf", "b.ttf", "c.ttf", "d.ttf", "e.ttf"]) "tmpdir")
        ["3-1"] = some [] ∧
      (fontofx_run (ZipInput.ok ["a.ttf", "b.ttf", "c.ttf", "d.ttf", "e.ttf"])
        false false false true [] ["3-1"]).1 = RunExit.nothingSelected) :=
  ⟨⟨by decide, by decide, by decide⟩,
    C10_reversed_range 3 1 (by decide)
      (ZipInput.ok ["a.ttf", "b.ttf", "c.ttf", "d.ttf", "e.ttf"]) "3-1" []
      (by decide) (by decide)⟩
